import Mathlib

/- Verification development for the simba_variant preprocessing module
   (simba/preprocessing/preprocess.py). The annotated data object is
   embedded as explicit record states; NumPy arrays become Lean lists;
   Python floats become rationals; fallible code returns an explicit
   error component. The elbow locator lives in a sibling module that is
   consumed through its interface; the call sites below are therefore
   parametrized by an arbitrary locator function of that interface
   (curve x, curve y, sensitivity S, min_elbow, curve shape, direction,
   online flag, returning an optional elbow index). -/

namespace Simba

/-- Interface of the external locate_elbow routine: arguments are the x
sequence, the y sequence, the sensitivity S, the min_elbow bound, the
curve shape, the direction, and the online flag; the result is the
optional elbow index (absent when no elbow is found). -/
abbrev Locator : Type :=
  List ℚ → List ℚ → ℚ → ℚ → String → String → Bool → Option ℕ

/-- Embedding of the Python expression range(n) as a rational curve of
x coordinates 0, 1, ..., n-1. -/
def xRange (n : ℕ) : List ℚ := (List.range n).map (fun i => (i : ℚ))

/-- State touched by pca, select_pcs and select_pcs_features: the data
matrix X, the obsm X_pca projection with its column count kept
explicitly (a list of rows loses its width when there are no rows), the
per-component variance ratio curve, the stored component count (which
holds whatever the locator returned, possibly the absent value), the
varm PCs loading matrix (features by components), the uns features
record (per-component index lists, in component order) and the var
top_pcs boolean column. -/
structure PcaState where
  X : List (List ℚ)
  x_pca : List (List ℚ)
  x_pca_ncols : ℕ
  variance_ratio : List ℚ
  n_pcs : Option ℕ
  pcs : List (List ℚ)
  features : List (List ℕ)
  top_pcs : List Bool
  deriving DecidableEq

/-- Descending insertion step used by the argsort embedding. -/
def insertDescBy (key : ℕ → ℚ) (j : ℕ) : List ℕ → List ℕ
  | [] => [j]
  | a :: t => if key j > key a then j :: a :: t else a :: insertDescBy key j t

/-- Embedding of np.argsort(values)[::-1]: the indices 0..n-1 sorted by
descending key. Ties are left in an unspecified order, as with the
default NumPy sort kind; concrete inputs below use distinct keys. -/
def argsortDesc (key : ℕ → ℚ) (n : ℕ) : List ℕ :=
  (List.range n).foldr (insertDescBy key) []

/-- Computable absolute value on the rationals, the embedding of
np.abs. -/
def ratAbs (q : ℚ) : ℚ := if q < 0 then -q else q

/-- Absolute loading of feature j on component i, the sort key of the
per-component feature ranking in select_pcs_features. -/
def pcAbsKey (s : PcaState) (i : ℕ) : ℕ → ℚ :=
  fun j => ratAbs ((s.pcs.getD j []).getD i 0)

/-- Embedding of the Python slice l[:e] where e may be None: a None
bound keeps the whole list, an integer bound truncates. -/
def pySlice {α : Type} (e : Option ℕ) (l : List α) : List α :=
  match e with
  | some k => l.take k
  | none => l

/-- Message of the Python TypeError raised by range(None). -/
def pyRangeNoneError : String :=
  "TypeError: NoneType object cannot be interpreted as an integer"

/-- Embedding of select_pcs. With an explicit n_pcs the locator branch
is skipped and the count is stored as given; otherwise the locator is
invoked on the variance-ratio curve with min_elbow defaulting to the
computed component count divided by 10 (true division). The curve
argument of select_pcs is accepted but not forwarded, so the locator
receives its own default curve shape. -/
def select_pcs (loc : Locator) (s : PcaState) (n_pcs : Option ℕ) (S : ℚ)
    (curve direction : String) (online : Bool) (min_elbow : Option ℚ) : PcaState :=
  match n_pcs with
  | none =>
      let r := loc (xRange s.x_pca_ncols) s.variance_ratio S
        (min_elbow.getD ((s.x_pca_ncols : ℚ) / 10)) ("convex") direction online
      { s with n_pcs := r }
  | some k => { s with n_pcs := some k }

/-- Per-component body of the select_pcs_features loop: rank all
features by descending absolute loading, invoke the locator on the
sorted magnitude curve (the call site forwards only S and min_elbow, so
curve, direction and online take the locator defaults), and truncate
the ranked index list at the elbow. -/
def featList (loc : Locator) (s : PcaState) (S : ℚ) (me : ℚ) (i : ℕ) : List ℕ :=
  pySlice
    (loc (xRange s.pcs.length)
      ((argsortDesc (pcAbsKey s i) s.pcs.length).map (pcAbsKey s i))
      S me ("convex") ("decreasing") false)
    (argsortDesc (pcAbsKey s i) s.pcs.length)

/-- The per-component index lists of select_pcs_features, in component
order, as recorded in the uns features mapping. -/
def featLists (loc : Locator) (s : PcaState) (S : ℚ) (me : ℚ) (k : ℕ) : List (List ℕ) :=
  (List.range k).map (featList loc s S me)

/-- Embedding of select_pcs_features. The features mapping is reset
first; when the stored component count is the absent value, iterating
range over it raises a TypeError, leaving the reset mapping behind.
Otherwise each retained component contributes its truncated ranked
index list, and the var top_pcs boolean column is written to be true
exactly on the concatenation of those lists. The curve and direction
arguments are accepted but not forwarded to the locator. -/
def select_pcs_features (loc : Locator) (s : PcaState) (S : ℚ)
    (curve direction : String) (online : Bool) (min_elbow : Option ℚ) :
    PcaState × Option String :=
  match s.n_pcs with
  | none => ({ s with features := [] }, some pyRangeNoneError)
  | some k =>
      let lists := featLists loc s S (min_elbow.getD ((s.pcs.length : ℚ) / 10)) k
      ({ s with features := lists,
                top_pcs := (List.range s.pcs.length).map
                  (fun j => decide (j ∈ lists.flatten)) },
       none)

/-- Locator instance returning a top-3 elbow on every curve. -/
def locThree : Locator := fun _ _ _ _ _ _ _ => some 3

/-- Locator instance that never finds an elbow. -/
def locNone : Locator := fun _ _ _ _ _ _ _ => none

/-- Concrete state with 6 features and 2 retained components whose
top-3 lists overlap in exactly one feature. -/
def sC1 : PcaState :=
  { X := [], x_pca := [], x_pca_ncols := 2, variance_ratio := [],
    n_pcs := some 2,
    pcs := [[(9 : ℚ), 1], [(8 : ℚ), 2], [(7 : ℚ), 8],
            [(1 : ℚ), 9], [(2 : ℚ), 7], [(0 : ℚ), 0]],
    features := [], top_pcs := [] }

/-- Concrete state used for the absent-elbow scenarios: the stored
component count is the absent value. -/
def sC2n : PcaState :=
  { X := [], x_pca := [], x_pca_ncols := 3, variance_ratio := [1, 1, 1],
    n_pcs := none, pcs := [[1], [2], [3]], features := [], top_pcs := [] }

/-- Concrete state with a stored component count of 1 and 3 features. -/
def sC2k : PcaState :=
  { X := [], x_pca := [], x_pca_ncols := 3, variance_ratio := [1, 1, 1],
    n_pcs := some 1, pcs := [[3], [1], [2]], features := [], top_pcs := [] }

theorem insertDescBy_length (key : ℕ → ℚ) (j : ℕ) :
    ∀ l : List ℕ, (insertDescBy key j l).length = l.length + 1
  | [] => rfl
  | a :: t => by
    by_cases h : key j > key a
    · simp [insertDescBy, h]
    · simp [insertDescBy, h, insertDescBy_length key j t]

theorem foldr_insertDescBy_length (key : ℕ → ℚ) :
    ∀ l : List ℕ, (l.foldr (insertDescBy key) []).length = l.length
  | [] => rfl
  | a :: t => by
    simp [List.foldr_cons, insertDescBy_length, foldr_insertDescBy_length key t]

theorem argsortDesc_length (key : ℕ → ℚ) (n : ℕ) :
    (argsortDesc key n).length = n := by
  simp [argsortDesc, foldr_insertDescBy_length]

theorem getD_map_range {α : Type} (f : ℕ → α) (d : α) {n j : ℕ} (h : j < n) :
    ((List.range n).map f).getD j d = f j := by
  rw [List.getD_eq_getElem?_getD, List.getElem?_map, List.getElem?_range h]
  rfl

theorem select_pcs_features_some (loc : Locator) (s : PcaState) (S : ℚ)
    (c d : String) (o : Bool) (me : Option ℚ) (k : ℕ) (hk : s.n_pcs = some k) :
    select_pcs_features loc s S c d o me =
      ({ s with
          features := featLists loc s S (me.getD ((s.pcs.length : ℚ) / 10)) k,
          top_pcs := (List.range s.pcs.length).map
            (fun j => decide (j ∈ (featLists loc s S
              (me.getD ((s.pcs.length : ℚ) / 10)) k).flatten)) },
       none) := by
  simp [select_pcs_features, hk]

/-- Claim C1: after select_pcs_features completes, the top_pcs boolean
column is true at a feature index exactly when that feature occurs in
the per-component top index list of at least one retained component,
and at no other index. -/
theorem select_pcs_features_top_union (loc : Locator) (s : PcaState) (S : ℚ)
    (c d : String) (o : Bool) (me : Option ℚ) (k : ℕ) (hk : s.n_pcs = some k)
    (j : ℕ) (hj : j < s.pcs.length) :
    ((select_pcs_features loc s S c d o me).1.top_pcs.getD j false = true ↔
      ∃ i, i < k ∧ j ∈ (select_pcs_features loc s S c d o me).1.features.getD i []) := by
  rw [select_pcs_features_some loc s S c d o me k hk]
  simp only []
  rw [getD_map_range _ _ hj, decide_eq_true_eq]
  unfold featLists
  constructor
  · intro hmem
    rcases List.mem_flatten.mp hmem with ⟨l, hl, hjl⟩
    rcases List.mem_map.mp hl with ⟨i, hi, rfl⟩
    have hik := List.mem_range.mp hi
    exact ⟨i, hik, by rw [getD_map_range _ _ hik]; exact hjl⟩
  · rintro ⟨i, hik, hji⟩
    apply List.mem_flatten.mpr
    refine ⟨featList loc s S (me.getD ((s.pcs.length : ℚ) / 10)) i, ?_, ?_⟩
    · exact List.mem_map.mpr ⟨i, List.mem_range.mpr hik, rfl⟩
    · rw [getD_map_range _ _ hik] at hji
      exact hji

/-- Claim C1 witness: in the concrete state with 2 retained components
whose top-3 lists are [0,1,2] and [3,2,4] (one overlapping feature),
the union theorem applies and the final column has exactly 5 true
entries. -/
theorem select_pcs_features_top_union_witness :
    sC1.n_pcs = some 2 ∧ 2 < sC1.pcs.length
    ∧ ((select_pcs_features locThree sC1 1 ("convex") ("decreasing") false none).1.top_pcs.getD 2 false = true ↔
        ∃ i, i < 2 ∧ 2 ∈ (select_pcs_features locThree sC1 1 ("convex") ("decreasing") false none).1.features.getD i [])
    ∧ (select_pcs_features locThree sC1 1 ("convex") ("decreasing") false none).1.features
        = [[0, 1, 2], [3, 2, 4]]
    ∧ (select_pcs_features locThree sC1 1 ("convex") ("decreasing") false none).1.top_pcs.count true = 5 :=
  ⟨rfl, by decide,
   select_pcs_features_top_union locThree sC1 1 ("convex") ("decreasing") false none 2 rfl 2 (by decide),
   by decide, by decide⟩

/-- Claim C2: when the locator reports no elbow, select_pcs stores the
absent value as the component count; a later select_pcs_features call
on such a state fails with the range TypeError (after resetting the
features mapping); and a per-component absent elbow makes the
truncation slice keep the entire ranked feature list instead of
applying any explicit fallback. -/
theorem elbow_absent_behavior :
    (∀ (loc : Locator) (s : PcaState) (S : ℚ) (c d : String) (o : Bool) (me : Option ℚ),
      loc (xRange s.x_pca_ncols) s.variance_ratio S
          (me.getD ((s.x_pca_ncols : ℚ) / 10)) ("convex") d o = none →
      (select_pcs loc s none S c d o me).n_pcs = none)
    ∧ (∀ (loc : Locator) (s : PcaState) (S : ℚ) (c d : String) (o : Bool) (me : Option ℚ),
      s.n_pcs = none →
      select_pcs_features loc s S c d o me = ({ s with features := [] }, some pyRangeNoneError))
    ∧ (∀ (loc : Locator) (s : PcaState) (S : ℚ) (c d : String) (o : Bool) (me : Option ℚ)
        (k : ℕ), s.n_pcs = some k →
      (∀ x y S2 me2 c2 d2 o2, loc x y S2 me2 c2 d2 o2 = none) →
      ∀ i, i < k →
      (select_pcs_features loc s S c d o me).1.features.getD i []
          = argsortDesc (pcAbsKey s i) s.pcs.length
        ∧ (argsortDesc (pcAbsKey s i) s.pcs.length).length = s.pcs.length) := by
  refine ⟨?_, ?_, ?_⟩
  · intro loc s S c d o me h
    simpa [select_pcs] using h
  · intro loc s S c d o me h
    simp [select_pcs_features, h]
  · intro loc s S c d o me k hk hloc i hik
    rw [select_pcs_features_some loc s S c d o me k hk]
    refine ⟨?_, argsortDesc_length _ _⟩
    simp only []
    unfold featLists
    rw [getD_map_range _ _ hik]
    unfold featList
    rw [hloc]
    rfl

/-- Claim C2 witness: with a locator that never finds an elbow, the
stored count is absent; select_pcs_features on the absent count returns
the TypeError; and with a stored count of 1 the single component keeps
all 3 ranked features. -/
theorem elbow_absent_behavior_witness :
    ((select_pcs locNone sC2n none 1 ("convex") ("decreasing") false none).n_pcs = none)
    ∧ (sC2n.n_pcs = none
      ∧ select_pcs_features locNone sC2n 1 ("convex") ("decreasing") false none
          = ({ sC2n with features := [] }, some pyRangeNoneError))
    ∧ (sC2k.n_pcs = some 1
      ∧ (select_pcs_features locNone sC2k 1 ("convex") ("decreasing") false none).1.features.getD 0 []
          = argsortDesc (pcAbsKey sC2k 0) sC2k.pcs.length
      ∧ (argsortDesc (pcAbsKey sC2k 0) sC2k.pcs.length).length = sC2k.pcs.length) :=
  ⟨elbow_absent_behavior.1 locNone sC2n 1 ("convex") ("decreasing") false none rfl,
   ⟨rfl, elbow_absent_behavior.2.1 locNone sC2n 1 ("convex") ("decreasing") false none rfl⟩,
   ⟨rfl,
    (elbow_absent_behavior.2.2 locNone sC2k 1 ("convex") ("decreasing") false none 1 rfl
      (fun _ _ _ _ _ _ _ => rfl) 0 (by decide)).1,
    (elbow_absent_behavior.2.2 locNone sC2k 1 ("convex") ("decreasing") false none 1 rfl
      (fun _ _ _ _ _ _ _ => rfl) 0 (by decide)).2⟩⟩

/-- Claim C3: at both call sites, leaving min_elbow unset behaves
exactly as passing the curve length divided by 10 under true rational
division: the computed component count over 10 in select_pcs and the
feature count over 10 in select_pcs_features. -/
theorem min_elbow_default_division :
    (∀ (loc : Locator) (s : PcaState) (S : ℚ) (c d : String) (o : Bool),
      select_pcs loc s none S c d o none
        = select_pcs loc s none S c d o (some ((s.x_pca_ncols : ℚ) / 10)))
    ∧ (∀ (loc : Locator) (s : PcaState) (S : ℚ) (c d : String) (o : Bool),
      select_pcs_features loc s S c d o none
        = select_pcs_features loc s S c d o (some ((s.pcs.length : ℚ) / 10))) :=
  ⟨fun _ _ _ _ _ _ => rfl, fun _ _ _ _ _ _ => rfl⟩

/-- Claim C4: an explicit component count is stored verbatim and the
locator is never consulted (the result does not depend on the locator
at all), and select_pcs leaves every matrix of the state unchanged in
both branches. -/
theorem select_pcs_explicit_count_frame :
    (∀ (loc loc2 : Locator) (s : PcaState) (k : ℕ) (S : ℚ) (c d : String)
        (o : Bool) (me : Option ℚ),
      select_pcs loc s (some k) S c d o me = select_pcs loc2 s (some k) S c d o me)
    ∧ (∀ (loc : Locator) (s : PcaState) (k : ℕ) (S : ℚ) (c d : String)
        (o : Bool) (me : Option ℚ),
      (select_pcs loc s (some k) S c d o me).n_pcs = some k)
    ∧ (∀ (loc : Locator) (s : PcaState) (np : Option ℕ) (S : ℚ) (c d : String)
        (o : Bool) (me : Option ℚ),
      (select_pcs loc s np S c d o me).X = s.X
        ∧ (select_pcs loc s np S c d o me).x_pca = s.x_pca
        ∧ (select_pcs loc s np S c d o me).pcs = s.pcs) := by
  refine ⟨?_, ?_, ?_⟩
  · intro loc loc2 s k S c d o me
    rfl
  · intro loc s k S c d o me
    simp [select_pcs]
  · intro loc s np S c d o me
    cases np <;> simp [select_pcs]

/-- Claim C10: the curve argument of select_pcs and the curve and
direction arguments of select_pcs_features have no effect on the
result, for every locator and state. -/
theorem curve_direction_args_unused :
    (∀ (loc : Locator) (s : PcaState) (np : Option ℕ) (S : ℚ) (c1 c2 d : String)
        (o : Bool) (me : Option ℚ),
      select_pcs loc s np S c1 d o me = select_pcs loc s np S c2 d o me)
    ∧ (∀ (loc : Locator) (s : PcaState) (S : ℚ) (c1 c2 d1 d2 : String)
        (o : Bool) (me : Option ℚ),
      select_pcs_features loc s S c1 d1 o me = select_pcs_features loc s S c2 d2 o me) :=
  ⟨fun _ _ _ _ _ _ _ _ _ => rfl, fun _ _ _ _ _ _ _ _ _ => rfl⟩

/-- Boolean-mask subsetting, the embedding of NumPy boolean indexing as
used by the inplace subset operations; positions where the mask is true
are kept. -/
def applyMask {α : Type} : List Bool → List α → List α
  | [], _ => []
  | _ :: _, [] => []
  | true :: m, a :: l => a :: applyMask m l
  | false :: m, _ :: l => applyMask m l

/-- Row read count: the per-sample sum of the count matrix row. Entries
are integers (count matrices), so the astype int conversion of the
source is the identity. -/
def rowNCounts (r : List ℤ) : ℤ := r.sum

/-- Number of entries of a row or column at or above the expression
cutoff, the expressed count. -/
def exprCount (cut : ℚ) (l : List ℤ) : ℕ :=
  l.countP (fun v => decide ((v : ℚ) ≥ cut))

/-- Column j of a row-major matrix. -/
def colAt (X : List (List ℤ)) (j : ℕ) : List ℤ :=
  X.map (fun r => r.getD j 0)

/-- A cached metadata column, when present, has the length of the axis
it annotates. -/
abbrev lenOk {α : Type} (o : Option (List α)) (n : ℕ) : Prop :=
  (o.map List.length).getD n = n

/-- Test of a value against an optional lower threshold; an unset
threshold passes everything. -/
def optTestGe (o : Option ℚ) (v : ℚ) : Bool :=
  match o with
  | none => true
  | some w => decide (v ≥ w)

/-- Test of a value against an optional upper threshold; an unset
threshold passes everything. -/
def optTestLe (o : Option ℚ) (v : ℚ) : Bool :=
  match o with
  | none => true
  | some w => decide (v ≤ w)

/-- The all-thresholds-unset test of the filter functions: the source
counts the None entries of the six thresholds, listed mins first. -/
def allNone6 (a b c d e f : Option ℚ) : Bool :=
  decide (([a, b, c, d, e, f].countP Option.isNone) = 6)

/-- Per-row (or per-column) acceptance test of a filter call, combining
the six optional thresholds over the metric triple (read count,
expressed count, expressed fraction), in the order the source applies
them. -/
def rowPred (omin1 omax1 omin2 omax2 omin3 omax3 : Option ℚ)
    (m : ℤ × ℕ × ℚ) : Bool :=
  optTestGe omin1 (m.2.1 : ℚ) && optTestLe omax1 (m.2.1 : ℚ) &&
  optTestGe omin2 m.2.2 && optTestLe omax2 m.2.2 &&
  optTestGe omin3 (m.1 : ℚ) && optTestLe omax3 (m.1 : ℚ)

/-- Metric triples of an axis, zipped positionally. -/
def metricZip (nc : List ℤ) (nf : List ℕ) (pf : List ℚ) : List (ℤ × ℕ × ℚ) :=
  nc.zip (nf.zip pf)

/-- Sample-axis state shared by filter_samples, filter_cells_rna and
filter_cells_atac: the count matrix, its fixed column count, and the
optional cached obs metadata columns each function family reads and
writes. -/
structure ObsState where
  X : List (List ℤ)
  ncols : ℕ
  n_counts : Option (List ℤ)
  n_features : Option (List ℕ)
  pct_features : Option (List ℚ)
  n_genes : Option (List ℕ)
  pct_genes : Option (List ℚ)
  n_peaks : Option (List ℕ)
  pct_peaks : Option (List ℚ)
  deriving DecidableEq

/-- Embedding of the inplace obs subset: the boolean row mask is
applied to the matrix rows and to every obs metadata column; the var
axis is untouched. -/
def subsetObs (mask : List Bool) (s : ObsState) : ObsState :=
  { s with
    X := applyMask mask s.X,
    n_counts := s.n_counts.map (applyMask mask),
    n_features := s.n_features.map (applyMask mask),
    pct_features := s.pct_features.map (applyMask mask),
    n_genes := s.n_genes.map (applyMask mask),
    pct_genes := s.pct_genes.map (applyMask mask),
    n_peaks := s.n_peaks.map (applyMask mask),
    pct_peaks := s.pct_peaks.map (applyMask mask) }

/-- The n_counts column filter_samples uses: the cache when present,
else the fresh per-row sums. -/
def fsNc (s : ObsState) : List ℤ := s.n_counts.getD (s.X.map rowNCounts)

/-- The n_features column filter_samples uses: the cache when present,
else the fresh per-row expressed counts. -/
def fsNf (s : ObsState) (cut : ℚ) : List ℕ :=
  s.n_features.getD (s.X.map (exprCount cut))

/-- The pct_features column filter_samples uses: the cache when
present, else the expressed counts divided by the feature count. -/
def fsPf (s : ObsState) (cut : ℚ) : List ℚ :=
  s.pct_features.getD ((fsNf s cut).map (fun (v : ℕ) => (v : ℚ) / (s.ncols : ℚ)))

/-- The metadata write-back of filter_samples, performed before the
threshold branch. -/
def fsWrite (s : ObsState) (cut : ℚ) : ObsState :=
  { s with n_counts := some (fsNc s), n_features := some (fsNf s cut),
           pct_features := some (fsPf s cut) }

/-- The row mask filter_samples computes from its metric columns. -/
def fsMask (s : ObsState) (o1 o2 o3 o4 o5 o6 : Option ℚ) (cut : ℚ) : List Bool :=
  (metricZip (fsNc s) (fsNf s cut) (fsPf s cut)).map (rowPred o1 o2 o3 o4 o5 o6)

/-- Embedding of filter_samples. Thresholds are, in order, min and max
n_features, min and max pct_features, min and max n_counts. Metadata is
read from the cache or computed fresh and written back; with all six
thresholds unset the call stops there, otherwise the mask is applied to
the obs axis. -/
def filter_samples (s : ObsState) (o1 o2 o3 o4 o5 o6 : Option ℚ) (cut : ℚ) : ObsState :=
  if allNone6 o1 o3 o5 o2 o4 o6 then fsWrite s cut
  else subsetObs (fsMask s o1 o2 o3 o4 o5 o6 cut) (fsWrite s cut)

/-- The n_genes column filter_cells_rna uses. -/
def fcrNg (s : ObsState) (cut : ℚ) : List ℕ :=
  s.n_genes.getD (s.X.map (exprCount cut))

/-- The pct_genes column filter_cells_rna uses. -/
def fcrPg (s : ObsState) (cut : ℚ) : List ℚ :=
  s.pct_genes.getD ((fcrNg s cut).map (fun (v : ℕ) => (v : ℚ) / (s.ncols : ℚ)))

/-- The metadata write-back of filter_cells_rna. -/
def fcrWrite (s : ObsState) (cut : ℚ) : ObsState :=
  { s with n_counts := some (fsNc s), n_genes := some (fcrNg s cut),
           pct_genes := some (fcrPg s cut) }

/-- The row mask filter_cells_rna computes. -/
def fcrMask (s : ObsState) (o1 o2 o3 o4 o5 o6 : Option ℚ) (cut : ℚ) : List Bool :=
  (metricZip (fsNc s) (fcrNg s cut) (fcrPg s cut)).map (rowPred o1 o2 o3 o4 o5 o6)

/-- Embedding of filter_cells_rna, the gene-named copy of the sample
filter. -/
def filter_cells_rna (s : ObsState) (o1 o2 o3 o4 o5 o6 : Option ℚ) (cut : ℚ) : ObsState :=
  if allNone6 o1 o3 o5 o2 o4 o6 then fcrWrite s cut
  else subsetObs (fcrMask s o1 o2 o3 o4 o5 o6 cut) (fcrWrite s cut)

/-- The n_peaks column filter_cells_atac uses. -/
def fcaNp (s : ObsState) (cut : ℚ) : List ℕ :=
  s.n_peaks.getD (s.X.map (exprCount cut))

/-- The pct_peaks column filter_cells_atac uses. -/
def fcaPp (s : ObsState) (cut : ℚ) : List ℚ :=
  s.pct_peaks.getD ((fcaNp s cut).map (fun (v : ℕ) => (v : ℚ) / (s.ncols : ℚ)))

/-- The metadata write-back of filter_cells_atac. -/
def fcaWrite (s : ObsState) (cut : ℚ) : ObsState :=
  { s with n_counts := some (fsNc s), n_peaks := some (fcaNp s cut),
           pct_peaks := some (fcaPp s cut) }

/-- The row mask filter_cells_atac computes. -/
def fcaMask (s : ObsState) (o1 o2 o3 o4 o5 o6 : Option ℚ) (cut : ℚ) : List Bool :=
  (metricZip (fsNc s) (fcaNp s cut) (fcaPp s cut)).map (rowPred o1 o2 o3 o4 o5 o6)

/-- Embedding of filter_cells_atac, the peak-named copy of the sample
filter. -/
def filter_cells_atac (s : ObsState) (o1 o2 o3 o4 o5 o6 : Option ℚ) (cut : ℚ) : ObsState :=
  if allNone6 o1 o3 o5 o2 o4 o6 then fcaWrite s cut
  else subsetObs (fcaMask s o1 o2 o3 o4 o5 o6 cut) (fcaWrite s cut)

/-- Feature-axis state shared by filter_genes, filter_peaks and
filter_features: the count matrix, its column count, and the optional
cached var metadata columns. -/
structure VarState where
  X : List (List ℤ)
  ncols : ℕ
  n_counts : Option (List ℤ)
  n_cells : Option (List ℕ)
  pct_cells : Option (List ℚ)
  n_samples : Option (List ℕ)
  pct_samples : Option (List ℚ)
  deriving DecidableEq

/-- Embedding of the inplace var subset: the boolean column mask is
applied to every row of the matrix, to the column count, and to every
var metadata column; the obs axis is untouched. -/
def subsetVar (mask : List Bool) (s : VarState) : VarState :=
  { s with
    X := s.X.map (fun r => applyMask mask r),
    ncols := mask.count true,
    n_counts := s.n_counts.map (applyMask mask),
    n_cells := s.n_cells.map (applyMask mask),
    pct_cells := s.pct_cells.map (applyMask mask),
    n_samples := s.n_samples.map (applyMask mask),
    pct_samples := s.pct_samples.map (applyMask mask) }

/-- The n_counts column filter_genes uses: the cache when present, else
the fresh per-column sums. -/
def fgNc (s : VarState) : List ℤ :=
  s.n_counts.getD ((List.range s.ncols).map (fun j => rowNCounts (colAt s.X j)))

/-- The n_cells column filter_genes uses. -/
def fgCells (s : VarState) (cut : ℚ) : List ℕ :=
  s.n_cells.getD ((List.range s.ncols).map (fun j => exprCount cut (colAt s.X j)))

/-- The pct_cells column filter_genes uses. -/
def fgPct (s : VarState) (cut : ℚ) : List ℚ :=
  s.pct_cells.getD ((fgCells s cut).map (fun (v : ℕ) => (v : ℚ) / (s.X.length : ℚ)))

/-- The metadata write-back of filter_genes. -/
def fgWrite (s : VarState) (cut : ℚ) : VarState :=
  { s with n_counts := some (fgNc s), n_cells := some (fgCells s cut),
           pct_cells := some (fgPct s cut) }

/-- The column mask filter_genes computes. -/
def fgMask (s : VarState) (o1 o2 o3 o4 o5 o6 : Option ℚ) (cut : ℚ) : List Bool :=
  (metricZip (fgNc s) (fgCells s cut) (fgPct s cut)).map (rowPred o1 o2 o3 o4 o5 o6)

/-- Embedding of filter_genes. Thresholds are, in order, min and max
n_cells, min and max pct_cells, min and max n_counts. -/
def filter_genes (s : VarState) (o1 o2 o3 o4 o5 o6 : Option ℚ) (cut : ℚ) : VarState :=
  if allNone6 o1 o3 o5 o2 o4 o6 then fgWrite s cut
  else subsetVar (fgMask s o1 o2 o3 o4 o5 o6 cut) (fgWrite s cut)

/-- Embedding of filter_peaks, whose body is identical to filter_genes
apart from printed labels. -/
def filter_peaks (s : VarState) (o1 o2 o3 o4 o5 o6 : Option ℚ) (cut : ℚ) : VarState :=
  if allNone6 o1 o3 o5 o2 o4 o6 then fgWrite s cut
  else subsetVar (fgMask s o1 o2 o3 o4 o5 o6 cut) (fgWrite s cut)

/-- The n_samples column filter_features uses. -/
def ffNs (s : VarState) (cut : ℚ) : List ℕ :=
  s.n_samples.getD ((List.range s.ncols).map (fun j => exprCount cut (colAt s.X j)))

/-- The pct_samples column filter_features uses. -/
def ffPs (s : VarState) (cut : ℚ) : List ℚ :=
  s.pct_samples.getD ((ffNs s cut).map (fun (v : ℕ) => (v : ℚ) / (s.X.length : ℚ)))

/-- The metadata write-back of filter_features. -/
def ffWrite (s : VarState) (cut : ℚ) : VarState :=
  { s with n_counts := some (fgNc s), n_samples := some (ffNs s cut),
           pct_samples := some (ffPs s cut) }

/-- The column mask filter_features computes. -/
def ffMask (s : VarState) (o1 o2 o3 o4 o5 o6 : Option ℚ) (cut : ℚ) : List Bool :=
  (metricZip (fgNc s) (ffNs s cut) (ffPs s cut)).map (rowPred o1 o2 o3 o4 o5 o6)

/-- Embedding of filter_features, the sample-named copy of the feature
filter. -/
def filter_features (s : VarState) (o1 o2 o3 o4 o5 o6 : Option ℚ) (cut : ℚ) : VarState :=
  if allNone6 o1 o3 o5 o2 o4 o6 then ffWrite s cut
  else subsetVar (ffMask s o1 o2 o3 o4 o5 o6 cut) (ffWrite s cut)

/-- Concrete 10 by 5 count matrix with no cached metadata: 7 rows of
sum 15 and 3 rows of sum 1. -/
def sC5 : ObsState :=
  { X := [[3, 3, 3, 3, 3], [3, 3, 3, 3, 3], [3, 3, 3, 3, 3], [3, 3, 3, 3, 3],
          [3, 3, 3, 3, 3], [3, 3, 3, 3, 3], [3, 3, 3, 3, 3],
          [1, 0, 0, 0, 0], [1, 0, 0, 0, 0], [1, 0, 0, 0, 0]],
    ncols := 5, n_counts := none, n_features := none, pct_features := none,
    n_genes := none, pct_genes := none, n_peaks := none, pct_peaks := none }

theorem applyMask_map_filter {α : Type} (p : α → Bool) :
    ∀ l : List α, applyMask (l.map p) l = l.filter p
  | [] => rfl
  | a :: t => by
    cases h : p a
    · simp [applyMask, h, List.filter_cons, applyMask_map_filter p t]
    · simp [applyMask, h, List.filter_cons, applyMask_map_filter p t]

theorem applyMask_zip {α β : Type} :
    ∀ (m : List Bool) (l1 : List α) (l2 : List β), l1.length = l2.length →
      applyMask m (l1.zip l2) = (applyMask m l1).zip (applyMask m l2)
  | [], _, _, _ => by simp [applyMask]
  | _ :: _, [], _, _ => by simp [applyMask]
  | _ :: _, _ :: _, [], h => by simp at h
  | b :: m, a :: t1, c :: t2, h => by
    cases b
    · simpa [applyMask] using applyMask_zip m t1 t2 (by simpa using h)
    · simpa [applyMask] using applyMask_zip m t1 t2 (by simpa using h)

theorem applyMask_length_congr {α β : Type} :
    ∀ (m : List Bool) (l1 : List α) (l2 : List β), l1.length = l2.length →
      (applyMask m l1).length = (applyMask m l2).length
  | [], _, _, _ => by simp [applyMask]
  | _ :: _, [], [], _ => by simp [applyMask]
  | _ :: _, [], _ :: _, h => by simp at h
  | _ :: _, _ :: _, [], h => by simp at h
  | b :: m, a :: t1, c :: t2, h => by
    cases b
    · simpa [applyMask] using applyMask_length_congr m t1 t2 (by simpa using h)
    · simpa [applyMask] using applyMask_length_congr m t1 t2 (by simpa using h)

theorem applyMask_all_true {α : Type} :
    ∀ (m : List Bool) (l : List α), (∀ b ∈ m, b = true) → l.length ≤ m.length →
      applyMask m l = l
  | m, [], _, _ => by cases m <;> simp [applyMask]
  | [], _ :: _, _, h => by simp at h
  | b :: m, a :: t, hm, h => by
    have hb : b = true := hm b (List.mem_cons_self b m)
    subst hb
    simp [applyMask]
    exact applyMask_all_true m t (fun x hx => hm x (List.mem_cons_of_mem _ hx))
      (Nat.le_of_succ_le_succ (by simpa using h))

theorem getD_len {α : Type} (o : Option (List α)) (d : List α) (n : ℕ)
    (ho : lenOk o n) (hd : d.length = n) : (o.getD d).length = n := by
  cases o with
  | none => simpa using hd
  | some l => simpa [lenOk] using ho

theorem metricZip_length (nc : List ℤ) (nf : List ℕ) (pf : List ℚ) (n : ℕ)
    (h1 : nc.length = n) (h2 : nf.length = n) (h3 : pf.length = n) :
    (metricZip nc nf pf).length = n := by
  simp [metricZip, List.length_zip, h1, h2, h3]

theorem filter_samples_ncols (s : ObsState) (o1 o2 o3 o4 o5 o6 : Option ℚ) (cut : ℚ) :
    (filter_samples s o1 o2 o3 o4 o5 o6 cut).ncols = s.ncols := by
  unfold filter_samples
  split <;> simp [subsetObs, fsWrite]

/-- Claim C5: threshold filtering with a fixed configuration is
idempotent; applying filter_samples a second time right after the first
removes no further rows and no columns, for every count matrix whose
cached metadata columns (when present) are aligned to the sample
axis. -/
theorem filter_samples_idempotent (s : ObsState) (o1 o2 o3 o4 o5 o6 : Option ℚ)
    (cut : ℚ) (h1 : lenOk s.n_counts s.X.length) (h2 : lenOk s.n_features s.X.length)
    (h3 : lenOk s.pct_features s.X.length) :
    (filter_samples (filter_samples s o1 o2 o3 o4 o5 o6 cut) o1 o2 o3 o4 o5 o6 cut).X.length
      = (filter_samples s o1 o2 o3 o4 o5 o6 cut).X.length
    ∧ (filter_samples (filter_samples s o1 o2 o3 o4 o5 o6 cut) o1 o2 o3 o4 o5 o6 cut).ncols
      = (filter_samples s o1 o2 o3 o4 o5 o6 cut).ncols := by
  refine ⟨?_, by simp [filter_samples_ncols]⟩
  by_cases hall : allNone6 o1 o3 o5 o2 o4 o6 = true
  · simp [filter_samples, hall, fsWrite, fsNc, fsNf, fsPf]
  · have hnc : (fsNc s).length = s.X.length :=
      getD_len _ _ _ h1 (by simp)
    have hnf : (fsNf s cut).length = s.X.length :=
      getD_len _ _ _ h2 (by simp)
    have hpf : (fsPf s cut).length = s.X.length := by
      unfold fsPf
      refine getD_len _ _ _ h3 ?_
      rw [List.length_map]
      exact hnf
    have hz : (metricZip (fsNc s) (fsNf s cut) (fsPf s cut)).length = s.X.length :=
      metricZip_length _ _ _ _ hnc hnf hpf
    set z := metricZip (fsNc s) (fsNf s cut) (fsPf s cut) with hzdef
    set p := rowPred o1 o2 o3 o4 o5 o6 with hpdef
    have hs1 : filter_samples s o1 o2 o3 o4 o5 o6 cut
        = subsetObs (z.map p) (fsWrite s cut) := by
      simp [filter_samples, hall, fsMask, ← hzdef, ← hpdef]
    set s1 := filter_samples s o1 o2 o3 o4 o5 o6 cut with hs1def
    have e1 : fsNc s1 = applyMask (z.map p) (fsNc s) := by
      rw [hs1]
      simp [fsNc, subsetObs, fsWrite]
    have e2 : fsNf s1 cut = applyMask (z.map p) (fsNf s cut) := by
      rw [hs1]
      simp [fsNf, subsetObs, fsWrite]
    have e3 : fsPf s1 cut = applyMask (z.map p) (fsPf s cut) := by
      rw [hs1]
      simp [fsPf, subsetObs, fsWrite]
    have ez : metricZip (fsNc s1) (fsNf s1 cut) (fsPf s1 cut) = z.filter p := by
      rw [e1, e2, e3]
      unfold metricZip
      rw [← applyMask_zip (z.map p) (fsNf s cut) (fsPf s cut) (hnf.trans hpf.symm)]
      rw [← applyMask_zip (z.map p) (fsNc s) ((fsNf s cut).zip (fsPf s cut))
        (by simp [List.length_zip, hnc, hnf, hpf])]
      show applyMask (z.map p) (metricZip (fsNc s) (fsNf s cut) (fsPf s cut)) = z.filter p
      rw [← hzdef]
      exact applyMask_map_filter p z
    have hmask2 : ∀ b ∈ (z.filter p).map p, b = true := by
      intro b hb
      rcases List.mem_map.mp hb with ⟨x, hx, rfl⟩
      exact List.of_mem_filter hx
    have hX1 : s1.X = applyMask (z.map p) s.X := by
      rw [hs1]
      simp [subsetObs, fsWrite]
    have hX1len : s1.X.length = (z.filter p).length := by
      rw [hX1]
      calc (applyMask (z.map p) s.X).length
          = (applyMask (z.map p) z).length :=
            applyMask_length_congr _ _ _ hz.symm
        _ = (z.filter p).length := by rw [applyMask_map_filter]
    have hs2 : filter_samples s1 o1 o2 o3 o4 o5 o6 cut
        = subsetObs ((z.filter p).map p) (fsWrite s1 cut) := by
      simp [filter_samples, hall, fsMask, ez, ← hpdef]
    rw [hs2]
    have : (fsWrite s1 cut).X = s1.X := by simp [fsWrite]
    simp only [subsetObs, this]
    rw [applyMask_all_true ((z.filter p).map p) s1.X hmask2
      (by rw [hX1len]; simp)]

/-- Claim C5 witness: on the concrete 10 by 5 count matrix, a
min_n_counts threshold of 10 removes exactly 3 rows on the first
application, and the second application removes nothing. -/
theorem filter_samples_idempotent_witness :
    lenOk sC5.n_counts sC5.X.length ∧ lenOk sC5.n_features sC5.X.length
    ∧ lenOk sC5.pct_features sC5.X.length
    ∧ sC5.X.length = 10
    ∧ (filter_samples sC5 none none none none (some 10) none 1).X.length = 7
    ∧ ((filter_samples (filter_samples sC5 none none none none (some 10) none 1)
          none none none none (some 10) none 1).X.length
        = (filter_samples sC5 none none none none (some 10) none 1).X.length) :=
  ⟨by decide, by decide, by decide, by decide, by decide,
   (filter_samples_idempotent sC5 none none none none (some 10) none 1
     (by decide) (by decide) (by decide)).1⟩

/-- Claim C8: for each of the six filter functions, passing all six
thresholds as unset leaves the count matrix untouched, in rows, columns
and entries, and leaves the axis sizes unchanged. -/
theorem filters_all_none_noop (s : ObsState) (t : VarState) (cut : ℚ) :
    (filter_samples s none none none none none none cut).X = s.X
    ∧ (filter_samples s none none none none none none cut).ncols = s.ncols
    ∧ (filter_cells_rna s none none none none none none cut).X = s.X
    ∧ (filter_cells_rna s none none none none none none cut).ncols = s.ncols
    ∧ (filter_cells_atac s none none none none none none cut).X = s.X
    ∧ (filter_cells_atac s none none none none none none cut).ncols = s.ncols
    ∧ (filter_genes t none none none none none none cut).X = t.X
    ∧ (filter_genes t none none none none none none cut).ncols = t.ncols
    ∧ (filter_peaks t none none none none none none cut).X = t.X
    ∧ (filter_peaks t none none none none none none cut).ncols = t.ncols
    ∧ (filter_features t none none none none none none cut).X = t.X
    ∧ (filter_features t none none none none none none cut).ncols = t.ncols := by
  refine ⟨rfl, rfl, rfl, rfl, rfl, rfl, rfl, rfl, rfl, rfl, rfl, rfl⟩

/-- The metadata columns cal_qc writes: per-feature (var axis) read
counts, expressed-sample counts and expressed-sample fractions, and
per-sample (obs axis) read counts, expressed-feature counts and
expressed-feature fractions. -/
structure QcMetrics where
  var_n_counts : List ℤ
  var_n_samples : List ℕ
  var_pct_samples : List ℚ
  obs_n_counts : List ℤ
  obs_n_features : List ℕ
  obs_pct_features : List ℚ
  deriving DecidableEq

/-- Embedding of cal_qc on a count matrix with nvar feature columns:
column sums and per-column expressed counts along the feature axis, row
sums and per-row expressed counts along the sample axis, with the
expressed test being entry at or above the cutoff. -/
def cal_qc (X : List (List ℤ)) (nvar : ℕ) (expr_cutoff : ℚ) : QcMetrics :=
  let vns := (List.range nvar).map (fun j => exprCount expr_cutoff (colAt X j))
  let onf := X.map (exprCount expr_cutoff)
  { var_n_counts := (List.range nvar).map (fun j => rowNCounts (colAt X j)),
    var_n_samples := vns,
    var_pct_samples := vns.map (fun (v : ℕ) => (v : ℚ) / (X.length : ℚ)),
    obs_n_counts := X.map rowNCounts,
    obs_n_features := onf,
    obs_pct_features := onf.map (fun (v : ℕ) => (v : ℚ) / (nvar : ℚ)) }

/-- Claim C6: on the literal 3 by 3 count matrix with cutoff 1, cal_qc
records per-column expressed-sample counts [2,1,1] and per-row
expressed-feature counts [1,2,1]. -/
theorem cal_qc_p9_matrix :
    (cal_qc [[0, 2, 0], [1, 0, 3], [4, 0, 0]] 3 1).var_n_samples = [2, 1, 1]
    ∧ (cal_qc [[0, 2, 0], [1, 0, 3], [4, 0, 0]] 3 1).obs_n_features = [1, 2, 1] := by
  exact ⟨by decide, by decide⟩

/-- State touched by normalize: the data matrix and the raw layer. -/
structure NormState where
  X : List (List ℚ)
  layers_raw : Option (List (List ℚ))
  deriving DecidableEq

/-- Library-size normalization: each row is divided by its row sum and
scaled. Division by a zero row sum yields zero here where NumPy
produces a non-finite value; no claim exercises that case. -/
def lib_size_normalize (X : List (List ℚ)) (sf : ℚ) : List (List ℚ) :=
  X.map (fun r => r.map (fun v => v / r.sum * sf))

/-- Embedding of normalize, parametrized by the external tf-idf
transform of the sibling module. The method name is validated before
anything else; only then is the raw layer saved and the matrix
rewritten. -/
def normalize (tfidf : List (List ℚ) → List (List ℚ)) (s : NormState)
    (method : String) (scale_factor : ℚ) (save_raw : Bool) : Except String NormState :=
  if ¬ (method = ("lib_size") ∨ method = ("tf_idf")) then
    Except.error (("unrecognized method ") ++ method)
  else
    let s1 := if save_raw then { s with layers_raw := some s.X } else s
    let s2 := if method = ("lib_size") then { s1 with X := lib_size_normalize s1.X scale_factor } else s1
    let s3 := if method = ("tf_idf") then { s2 with X := tfidf s2.X } else s2
    Except.ok s3

/-- Concrete normalize input. -/
def sC7 : NormState := { X := [[1, 2], [3, 4]], layers_raw := none }

/-- Claim C7: for every method name outside the two recognized ones,
normalize rejects the input immediately with an error; in particular
the returned value carries no state, so neither the matrix nor the raw
layer is touched beforehand. -/
theorem normalize_invalid_method (tfidf : List (List ℚ) → List (List ℚ))
    (s : NormState) (method : String) (sf : ℚ) (sr : Bool)
    (h : ¬ (method = ("lib_size") ∨ method = ("tf_idf"))) :
    normalize tfidf s method sf sr = Except.error (("unrecognized method ") ++ method) := by
  simp only [normalize, if_pos h]

/-- Claim C7 witness: the method name foo is rejected on a concrete
state. -/
theorem normalize_invalid_method_witness :
    (¬ (("foo" : String) = ("lib_size") ∨ ("foo" : String) = ("tf_idf")))
    ∧ normalize id sC7 ("foo") 1 true = Except.error (("unrecognized method ") ++ ("foo")) :=
  ⟨by decide, normalize_invalid_method id sC7 ("foo") 1 true (by decide)⟩

/-- State touched by cal_qc_rna: the count matrix, the feature names
(strings, as the annotated-matrix container provides), and the optional
metadata columns it writes. -/
structure RnaState where
  X : List (List ℤ)
  var_names : List String
  var_n_counts : Option (List ℤ)
  var_n_cells : Option (List ℕ)
  var_pct_cells : Option (List ℚ)
  obs_n_counts : Option (List ℤ)
  obs_n_genes : Option (List ℕ)
  obs_pct_genes : Option (List ℚ)
  obs_pct_mt : Option (List ℚ)
  deriving DecidableEq

/-- A Python scalar that is either a text string or a bytes object; the
regular-expression engine distinguishes the two. -/
inductive PyScalar where
  | pstr : String → PyScalar
  | pbytes : List ℕ → PyScalar
  deriving DecidableEq

/-- The bytes of the pattern MT- compiled at the mitochondrial-gene
step (the caret anchors the match at the start). -/
def mtPatBytes : List ℕ := [77, 84, 45]

/-- ASCII lowercase folding for the IGNORECASE flag. -/
def asciiLower (c : ℕ) : ℕ := if 65 ≤ c ∧ c ≤ 90 then c + 32 else c

/-- Case-insensitive anchored byte match of the pattern against the
start of the subject. -/
def bytesMatchCI : List ℕ → List ℕ → Bool
  | [], _ => true
  | _ :: _, [] => false
  | p :: ps, c :: cs => decide (asciiLower p = asciiLower c) && bytesMatchCI ps cs

/-- Matching a compiled bytes pattern against a Python scalar: bytes
subjects are matched, while a text-string subject raises the TypeError
the re module produces when a bytes pattern meets a string. -/
def reMatchBytesPat (pat : List ℕ) (v : PyScalar) : Except String Bool :=
  match v with
  | .pbytes b => Except.ok (bytesMatchCI pat b)
  | .pstr _ =>
      Except.error ("TypeError: cannot use a bytes pattern on a string-like object")

/-- Embedding of list(filter(f, xs)) for a fallible predicate: elements
are tested left to right and the first raised error propagates. -/
def pyFilterList {α : Type} (f : α → Except String Bool) :
    List α → Except String (List α)
  | [] => Except.ok []
  | a :: t =>
    match f a with
    | Except.error e => Except.error e
    | Except.ok b =>
      match pyFilterList f t with
      | Except.error e => Except.error e
      | Except.ok r => Except.ok (if b then a :: r else r)

/-- Embedding of cal_qc_rna. The var and obs metadata columns are
written first; then the mitochondrial gene list is built by matching
the compiled bytes pattern against every feature name, which raises a
TypeError at the first name since names are strings; the state written
so far is kept and pct_mt is only reached when the name list is
empty. -/
def cal_qc_rna (s : RnaState) (expr_cutoff : ℚ) : RnaState × Option String :=
  let nvar := s.var_names.length
  let vcells := (List.range nvar).map (fun j => exprCount expr_cutoff (colAt s.X j))
  let ogenes := s.X.map (exprCount expr_cutoff)
  let onc := s.X.map rowNCounts
  let s1 := { s with
    var_n_counts := some ((List.range nvar).map (fun j => rowNCounts (colAt s.X j))),
    var_n_cells := some vcells,
    var_pct_cells := some (vcells.map (fun (v : ℕ) => (v : ℚ) / (s.X.length : ℚ))),
    obs_n_counts := some onc,
    obs_n_genes := some ogenes,
    obs_pct_genes := some (ogenes.map (fun (v : ℕ) => (v : ℚ) / (nvar : ℚ))) }
  match pyFilterList (fun nm => reMatchBytesPat mtPatBytes (.pstr nm)) s.var_names with
  | Except.error e => (s1, some e)
  | Except.ok mt_genes =>
    if mt_genes.length > 0 then
      let mtCols := (List.range nvar).filter
        (fun j => decide (List.getD s.var_names j ("") ∈ mt_genes))
      let nCountsMt := s.X.map (fun r => (mtCols.map (fun j => r.getD j 0)).sum)
      ({ s1 with obs_pct_mt := some ((nCountsMt.zip onc).map
          (fun p => (p.1 : ℚ) / (p.2 : ℚ))) }, none)
    else
      ({ s1 with obs_pct_mt := some (List.replicate s.X.length 0) }, none)

/-- Concrete dataset with one feature name. -/
def sC9 : RnaState :=
  { X := [[5]], var_names := [("g1")], var_n_counts := none, var_n_cells := none,
    var_pct_cells := none, obs_n_counts := none, obs_n_genes := none,
    obs_pct_genes := none, obs_pct_mt := none }

/-- Claim C9: on every dataset with at least one feature name,
cal_qc_rna raises the bytes-pattern TypeError after the per-gene and
per-cell columns are already written, and pct_mt is left unwritten;
only a dataset with zero features completes normally. -/
theorem cal_qc_rna_mt_type_error :
    (∀ (s : RnaState) (cut : ℚ), s.var_names ≠ [] →
      (cal_qc_rna s cut).2
          = some ("TypeError: cannot use a bytes pattern on a string-like object")
        ∧ (cal_qc_rna s cut).1.obs_pct_mt = s.obs_pct_mt
        ∧ (cal_qc_rna s cut).1.obs_n_genes = some (s.X.map (exprCount cut))
        ∧ (cal_qc_rna s cut).1.var_n_counts
          = some ((List.range s.var_names.length).map (fun j => rowNCounts (colAt s.X j))))
    ∧ (∀ (s : RnaState) (cut : ℚ), s.var_names = [] → (cal_qc_rna s cut).2 = none) := by
  constructor
  · intro s cut h
    cases hv : s.var_names with
    | nil => exact absurd hv h
    | cons a t =>
      refine ⟨?_, ?_, ?_, ?_⟩ <;>
        simp [cal_qc_rna, hv, pyFilterList, reMatchBytesPat]
  · intro s cut h
    simp [cal_qc_rna, h, pyFilterList]

/-- Claim C9 witness: the single-gene dataset hits the TypeError with
its metadata columns written and pct_mt untouched. -/
theorem cal_qc_rna_mt_type_error_witness :
    sC9.var_names ≠ []
    ∧ ((cal_qc_rna sC9 1).2
          = some ("TypeError: cannot use a bytes pattern on a string-like object")
        ∧ (cal_qc_rna sC9 1).1.obs_pct_mt = sC9.obs_pct_mt
        ∧ (cal_qc_rna sC9 1).1.obs_n_genes = some (sC9.X.map (exprCount 1))
        ∧ (cal_qc_rna sC9 1).1.var_n_counts
          = some ((List.range sC9.var_names.length).map (fun j => rowNCounts (colAt sC9.X j)))) :=
  ⟨by decide, cal_qc_rna_mt_type_error.1 sC9 1 (by decide)⟩

end Simba
